import Mathlib

/-!
Shallow embedding of tquic src/connection/flowcontrol.rs.

The Rust struct FlowControl holds five u64 counters and an optional
Instant. We model u64 values as Nat kept below U64 = 2 ^ 64, with every
arithmetic step that the Rust code performs on u64 reduced modulo U64
(release-mode wrapping semantics). Instants and Durations are modelled
as Nat timestamps; Rust Instant subtraction saturates at zero, which
Nat truncated subtraction matches exactly.
-/

def U64 : Nat := 2 ^ 64

/-- Wrapping u64 subtraction for operands below U64: adding U64 before
subtracting keeps the Nat subtraction from truncating, and the final
reduction modulo U64 yields the two's-complement wraparound value. -/
def wsub (a b : Nat) : Nat := (a + U64 - b) % U64

/-- State of flow control, mirroring struct FlowControl field by field:
read_off (bytes consumed), recv_off (largest offset observed), max_data
(current advertised limit), window, max_window, and last_updated, the
optional timestamp of the last max_data update. -/
structure FlowControl where
  read_off : Nat
  recv_off : Nat
  max_data : Nat
  window : Nat
  max_window : Nat
  last_updated : Option Nat
deriving DecidableEq

/-- FlowControl::new — max_data and window start at the given window,
max_window as given; the two counters default to 0 and last_updated to
None. -/
def FlowControl.new (window max_window : Nat) : FlowControl :=
  { read_off := 0
    recv_off := 0
    max_data := window
    window := window
    max_window := max_window
    last_updated := none }

/-- FlowControl::increase_recv_off — self.recv_off += delta (wrapping u64). -/
def FlowControl.increase_recv_off (s : FlowControl) (delta : Nat) : FlowControl :=
  { s with recv_off := (s.recv_off + delta) % U64 }

/-- FlowControl::increase_read_off — self.read_off += delta (wrapping u64). -/
def FlowControl.increase_read_off (s : FlowControl) (delta : Nat) : FlowControl :=
  { s with read_off := (s.read_off + delta) % U64 }

/-- FlowControl::should_send_max_data —
(self.max_data - self.read_off) * 2 < self.window, every u64 step
wrapping. The log::debug! call in the source has no effect on state. -/
def FlowControl.should_send_max_data (s : FlowControl) : Bool :=
  decide (((wsub s.max_data s.read_off) * 2) % U64 < s.window)

/-- FlowControl::max_data_next — self.read_off + self.window (wrapping u64). -/
def FlowControl.max_data_next (s : FlowControl) : Nat :=
  (s.read_off + s.window) % U64

/-- FlowControl::update_max_data — self.max_data = self.max_data_next();
self.last_updated = Some(now). -/
def FlowControl.update_max_data (s : FlowControl) (now : Nat) : FlowControl :=
  { s with max_data := s.max_data_next, last_updated := some now }

/-- FlowControl::autotune_window — if last_updated is set and
now - last_updated < srtt * 2 then window = min(window * 2, max_window).
Rust Instant subtraction saturates at zero, matching Nat subtraction;
window * 2 is a wrapping u64 product. -/
def FlowControl.autotune_window (s : FlowControl) (now srtt : Nat) : FlowControl :=
  match s.last_updated with
  | some lu =>
    if now - lu < srtt * 2 then
      { s with window := min ((s.window * 2) % U64) s.max_window }
    else s
  | none => s

/-- FlowControl::ensure_window_lower_bound —
self.window = max(self.window, min_window). -/
def FlowControl.ensure_window_lower_bound (s : FlowControl) (min_window : Nat) : FlowControl :=
  { s with window := max s.window min_window }

/-- Guarded (checked) subtraction: to establish that the u64 subtraction
in should_send_max_data cannot underflow, this variant returns none on
the underflow branch. -/
def checkedSub (a b : Nat) : Option Nat :=
  if b ≤ a then some (a - b) else none

/-- should_send_max_data with its internal subtraction guarded: none
exactly when max_data - read_off would underflow. -/
def FlowControl.should_send_max_data_guarded (s : FlowControl) : Option Bool :=
  (checkedSub s.max_data s.read_off).map (fun d => decide ((d * 2) % U64 < s.window))

/-- The operations a caller can apply to a FlowControl state, including
the two pure reads (which leave the state unchanged). -/
inductive Op where
  | incConsumed : Nat → Op
  | incArrived : Nat → Op
  | shouldSend : Op
  | nextLimit : Op
  | commit : Nat → Op
  | autotune : Nat → Nat → Op
  | ensureLB : Nat → Op
deriving DecidableEq

/-- Apply one operation to the state. -/
def applyOp (s : FlowControl) : Op → FlowControl
  | Op.incConsumed d => s.increase_read_off d
  | Op.incArrived d => s.increase_recv_off d
  | Op.shouldSend => s
  | Op.nextLimit => s
  | Op.commit now => s.update_max_data now
  | Op.autotune now srtt => s.autotune_window now srtt
  | Op.ensureLB m => s.ensure_window_lower_bound m

/-- Apply a sequence of operations from left to right. -/
def applyOps (s : FlowControl) (ops : List Op) : FlowControl :=
  ops.foldl applyOp s

/-- Every ensure_window_lower_bound argument in the sequence is at most mw. -/
def ensureOK (mw : Nat) (ops : List Op) : Bool :=
  ops.all fun op =>
    match op with
    | Op.ensureLB m => decide (m ≤ mw)
    | _ => true

/-- One step is overflow-free and in-policy at state s: counter
increments stay below 2 ^ 64, a commit has read_off + window below
2 ^ 64, and an ensure_window_lower_bound argument is at most max_window. -/
def okStep (s : FlowControl) : Op → Bool
  | Op.incConsumed d => decide (s.read_off + d < U64)
  | Op.incArrived d => decide (s.recv_off + d < U64)
  | Op.commit _ => decide (s.read_off + s.window < U64)
  | Op.ensureLB m => decide (m ≤ s.max_window)
  | _ => true

/-- Every step of the sequence is overflow-free and in-policy, checked
against the state at which it executes. -/
def okTrace (s : FlowControl) : List Op → Bool
  | [] => true
  | op :: ops => okStep s op && okTrace (applyOp s op) ops

/-- Sum of the deltas of the incConsumed operations in the sequence. -/
def consumedSum : List Op → Nat
  | [] => 0
  | Op.incConsumed d :: ops => d + consumedSum ops
  | _ :: ops => consumedSum ops

/-- Sum of the deltas of the incArrived operations in the sequence. -/
def arrivedSum : List Op → Nat
  | [] => 0
  | Op.incArrived d :: ops => d + arrivedSum ops
  | _ :: ops => arrivedSum ops

/-- The sequence consists only of incConsumed and incArrived operations. -/
def incOnly : List Op → Bool
  | [] => true
  | Op.incConsumed _ :: ops => incOnly ops
  | Op.incArrived _ :: ops => incOnly ops
  | _ => false

/-- Wrapping subtraction agrees with exact subtraction when there is no
underflow and the exact difference is representable. -/
theorem wsub_eq_sub {a b : Nat} (h1 : b ≤ a) (h2 : a - b < U64) :
    wsub a b = a - b := by
  unfold wsub
  have h3 : a + U64 - b = (a - b) + U64 := by omega
  rw [h3, Nat.add_mod_right, Nat.mod_eq_of_lt h2]

/-- Claim C7: new(window, max_window) produces a state with
limit = window, consumed = arrived = 0 and last_update_time absent, for
every pair of arguments — the precondition window ≤ max_window is not
validated, so no hypothesis is needed. -/
theorem c7_new_fields (w mw : Nat) :
    (FlowControl.new w mw).max_data = w ∧
    (FlowControl.new w mw).window = w ∧
    (FlowControl.new w mw).max_window = mw ∧
    (FlowControl.new w mw).read_off = 0 ∧
    (FlowControl.new w mw).recv_off = 0 ∧
    (FlowControl.new w mw).last_updated = none :=
  ⟨rfl, rfl, rfl, rfl, rfl, rfl⟩

/-- Claim C4: update_max_data(now) sets max_data to max_data_next and
last_updated to now, leaves the four other fields unchanged, no other
operation changes max_data, and a second commit with a different now and
no intervening operation repeats the same max_data while moving
last_updated. -/
theorem c4_commit_frame (s : FlowControl) (t1 t2 : Nat) (op : Op)
    (hop : ∀ u, op ≠ Op.commit u) :
    (s.update_max_data t1).max_data = s.max_data_next ∧
    (s.update_max_data t1).last_updated = some t1 ∧
    (s.update_max_data t1).read_off = s.read_off ∧
    (s.update_max_data t1).recv_off = s.recv_off ∧
    (s.update_max_data t1).window = s.window ∧
    (s.update_max_data t1).max_window = s.max_window ∧
    (applyOp s op).max_data = s.max_data ∧
    ((s.update_max_data t1).update_max_data t2).max_data
      = (s.update_max_data t1).max_data ∧
    ((s.update_max_data t1).update_max_data t2).last_updated = some t2 := by
  refine ⟨rfl, rfl, rfl, rfl, rfl, rfl, ?_, rfl, rfl⟩
  cases op with
  | incConsumed d => rfl
  | incArrived d => rfl
  | shouldSend => rfl
  | nextLimit => rfl
  | commit u => exact absurd rfl (hop u)
  | autotune now srtt =>
    show (s.autotune_window now srtt).max_data = s.max_data
    unfold FlowControl.autotune_window
    rcases s.last_updated with _ | lu
    · rfl
    · dsimp only
      split <;> rfl
  | ensureLB m => rfl

/-- Witness for C4 at a concrete state, a concrete non-commit operation
and concrete timestamps. -/
theorem c4_commit_frame_witness :
    (applyOp (FlowControl.new 7 9) (Op.ensureLB 8)).max_data
      = (FlowControl.new 7 9).max_data :=
  (c4_commit_frame (FlowControl.new 7 9) 3 4 (Op.ensureLB 8)
    (fun _ h => Op.noConfusion h)).2.2.2.2.2.2.1

/-- Claim C9: under the precondition consumed ≤ limit the guarded
subtraction inside should_send_max_data never takes its underflow
branch: the guarded variant is total there, and (for representable u64
max_data) agrees with the unguarded function. -/
theorem c9_no_underflow (s : FlowControl) (h1 : s.read_off ≤ s.max_data) :
    s.should_send_max_data_guarded.isSome = true ∧
    (s.max_data < U64 →
      s.should_send_max_data_guarded = some s.should_send_max_data) := by
  constructor
  · unfold FlowControl.should_send_max_data_guarded checkedSub
    rw [if_pos h1]
    rfl
  · intro h2
    unfold FlowControl.should_send_max_data_guarded checkedSub
      FlowControl.should_send_max_data
    rw [if_pos h1, wsub_eq_sub h1 (by omega)]
    rfl

/-- Witness for C9 at a concrete state with consumed ≤ limit. -/
theorem c9_no_underflow_witness :
    (FlowControl.increase_read_off (FlowControl.new 100 200)
        51).should_send_max_data_guarded.isSome = true :=
  (c9_no_underflow (FlowControl.increase_read_off (FlowControl.new 100 200) 51)
    (by decide)).1

/-- Counterexample for C10: at w = 2 ^ 63 (which satisfies w ≤ mw), the
doubling in should_send_max_data wraps modulo 2 ^ 64, and the freshly
constructed state reports that an update is due. -/
theorem c10_fresh_cex :
    (2 ^ 63 : Nat) ≤ 2 ^ 63 ∧
    (FlowControl.new (2 ^ 63) (2 ^ 63)).should_send_max_data = true := by
  constructor
  · decide
  · rfl

/-- Claim C10 (amended): whenever window * 2 is representable in u64, a
freshly constructed state has should_send_max_data = false. -/
theorem c10_fresh_no_update (w mw : Nat) (h1 : w ≤ mw) (h2 : w * 2 < U64) :
    (FlowControl.new w mw).should_send_max_data = false := by
  unfold FlowControl.new FlowControl.should_send_max_data
  dsimp only
  rw [wsub_eq_sub (Nat.zero_le w) (by omega), Nat.sub_zero,
    Nat.mod_eq_of_lt h2]
  simp only [decide_eq_false_iff_not, not_lt]
  omega

/-- Witness for C10 at the spec scenario window = 100, max_window = 200. -/
theorem c10_fresh_no_update_witness :
    (FlowControl.new 100 200).should_send_max_data = false :=
  c10_fresh_no_update 100 200 (by decide) (by decide)

/-- Counterexample for C1: a state with consumed ≤ limit on which
should_send_max_data returns true although (limit - consumed) * 2, read
as exact arithmetic, is not below window — the u64 doubling wraps. -/
theorem c1_should_send_cex :
    (FlowControl.increase_read_off
        (FlowControl.new (2 ^ 63 + 1) (2 ^ 63 + 1)) 1).read_off ≤
      (FlowControl.increase_read_off
        (FlowControl.new (2 ^ 63 + 1) (2 ^ 63 + 1)) 1).max_data ∧
    (FlowControl.increase_read_off
        (FlowControl.new (2 ^ 63 + 1) (2 ^ 63 + 1)) 1).should_send_max_data
      = true ∧
    ¬ (((FlowControl.increase_read_off
          (FlowControl.new (2 ^ 63 + 1) (2 ^ 63 + 1)) 1).max_data -
        (FlowControl.increase_read_off
          (FlowControl.new (2 ^ 63 + 1) (2 ^ 63 + 1)) 1).read_off) * 2 <
        (FlowControl.increase_read_off
          (FlowControl.new (2 ^ 63 + 1) (2 ^ 63 + 1)) 1).window) := by
  refine ⟨by decide, rfl, by decide⟩

/-- Claim C1 (amended): for states with consumed ≤ limit in which the
doubling (limit - consumed) * 2 is representable in u64,
should_send_max_data is true iff (limit - consumed) * 2 < window; it is
a pure read of the state, false exactly at the threshold and true one
unit past it. -/
theorem c1_should_send_iff (s : FlowControl)
    (h1 : s.read_off ≤ s.max_data)
    (h2 : (s.max_data - s.read_off) * 2 < U64) :
    (s.should_send_max_data = true ↔
      (s.max_data - s.read_off) * 2 < s.window) ∧
    applyOp s Op.shouldSend = s ∧
    ((s.max_data - s.read_off) * 2 = s.window →
      s.should_send_max_data = false) ∧
    (s.window = (s.max_data - s.read_off) * 2 + 1 →
      s.should_send_max_data = true) := by
  have key : s.should_send_max_data
      = decide ((s.max_data - s.read_off) * 2 < s.window) := by
    unfold FlowControl.should_send_max_data
    rw [wsub_eq_sub h1 (by omega), Nat.mod_eq_of_lt h2]
  refine ⟨?_, rfl, ?_, ?_⟩
  · rw [key]; exact decide_eq_true_iff
  · intro h3
    rw [key, h3]
    simp
  · intro h3
    rw [key, h3]
    simp

/-- Witness for C1 at the spec scenario: window 100, 51 bytes consumed,
remaining allowance 49, 98 < 100 so an update is due. -/
theorem c1_should_send_iff_witness :
    (FlowControl.increase_read_off (FlowControl.new 100 200)
        51).should_send_max_data = true :=
  ((c1_should_send_iff
      (FlowControl.increase_read_off (FlowControl.new 100 200) 51)
      (by decide) (by decide)).1).mpr (by decide)

/-- Counterexample for C8: a state in which read_off + window reaches
2 ^ 64, so max_data_next wraps and differs from the exact sum
consumed + window. -/
theorem c8_next_limit_cex :
    (FlowControl.increase_read_off (FlowControl.new 2 2)
        (2 ^ 64 - 1)).max_data_next ≠
      (FlowControl.increase_read_off (FlowControl.new 2 2)
          (2 ^ 64 - 1)).read_off +
        (FlowControl.increase_read_off (FlowControl.new 2 2)
            (2 ^ 64 - 1)).window := by
  decide

/-- Claim C8 (amended): whenever consumed + window is representable in
u64, max_data_next returns exactly consumed + window, and the operation
is a pure read that leaves the state unchanged (hence idempotent). -/
theorem c8_next_limit_exact (s : FlowControl)
    (h : s.read_off + s.window < U64) :
    s.max_data_next = s.read_off + s.window ∧
    applyOp s Op.nextLimit = s := by
  constructor
  · unfold FlowControl.max_data_next
    exact Nat.mod_eq_of_lt h
  · rfl

/-- Witness for C8 at a concrete state. -/
theorem c8_next_limit_exact_witness :
    (FlowControl.new 100 200).max_data_next
      = (FlowControl.new 100 200).read_off + (FlowControl.new 100 200).window :=
  (c8_next_limit_exact (FlowControl.new 100 200) (by decide)).1

/-- Counterexample for C2: a reachable state with window = 2 ^ 63 on
which autotune_window, called within 2 RTTs of the last update, wraps
the doubling and strictly decreases the window. -/
theorem c2_autotune_cex :
    (FlowControl.autotune_window
        (FlowControl.update_max_data
          (FlowControl.new (2 ^ 63) (2 ^ 64 - 1)) 0) 0 1).window <
      (FlowControl.update_max_data
        (FlowControl.new (2 ^ 63) (2 ^ 64 - 1)) 0).window := by
  decide

/-- Claim C2 (amended): whenever window * 2 is representable in u64,
autotune_window leaves the state unchanged when last_updated is absent
or the elapsed time is at least 2 * srtt, doubles the window capped at
max_window when the elapsed time is below 2 * srtt, and (when
window ≤ max_window) never decreases the window. -/
theorem c2_autotune_cases (s : FlowControl) (now srtt : Nat)
    (h : s.window * 2 < U64) :
    (s.last_updated = none → s.autotune_window now srtt = s) ∧
    (∀ lu, s.last_updated = some lu → now - lu < srtt * 2 →
      s.autotune_window now srtt
        = { s with window := min (s.window * 2) s.max_window }) ∧
    (∀ lu, s.last_updated = some lu → ¬ (now - lu < srtt * 2) →
      s.autotune_window now srtt = s) ∧
    (s.window ≤ s.max_window →
      s.window ≤ (s.autotune_window now srtt).window) := by
  rcases s with ⟨ro, rv, md, w, mw, lu⟩
  dsimp only at h ⊢
  refine ⟨?_, ?_, ?_, ?_⟩
  · intro hlu
    subst hlu
    rfl
  · intro lu0 hlu hlt
    subst hlu
    unfold FlowControl.autotune_window
    dsimp only
    rw [if_pos hlt, Nat.mod_eq_of_lt h]
  · intro lu0 hlu hge
    subst hlu
    unfold FlowControl.autotune_window
    dsimp only
    rw [if_neg hge]
  · intro hwm
    unfold FlowControl.autotune_window
    rcases lu with _ | lu0
    · exact Nat.le_refl _
    · dsimp only
      split
      · dsimp only
        rw [Nat.mod_eq_of_lt h]
        exact le_min (by omega) hwm
      · exact Nat.le_refl _

/-- Witness for C2 at a concrete state whose last update was within
2 RTTs: the window doubles from 5 to 10. -/
theorem c2_autotune_cases_witness :
    FlowControl.autotune_window
        ⟨0, 0, 5, 5, 100, some 0⟩ 1 3 = ⟨0, 0, 5, 10, 100, some 0⟩ :=
  ((c2_autotune_cases ⟨0, 0, 5, 5, 100, some 0⟩ 1 3 (by decide)).2.1 0 rfl
    (by decide)).trans (by decide)

/-- Reduction of autotune_window on a literal state whose last update
was within 2 * srtt. -/
theorem autotune_eq_pos (ro rv md w mw lu now srtt : Nat)
    (hif : now - lu < srtt * 2) :
    FlowControl.autotune_window ⟨ro, rv, md, w, mw, some lu⟩ now srtt
      = ⟨ro, rv, md, min ((w * 2) % U64) mw, mw, some lu⟩ := by
  unfold FlowControl.autotune_window
  dsimp only
  rw [if_pos hif]

/-- Reduction of autotune_window on a literal state whose last update
was at least 2 * srtt ago. -/
theorem autotune_eq_neg (ro rv md w mw lu now srtt : Nat)
    (hif : ¬ (now - lu < srtt * 2)) :
    FlowControl.autotune_window ⟨ro, rv, md, w, mw, some lu⟩ now srtt
      = ⟨ro, rv, md, w, mw, some lu⟩ := by
  unfold FlowControl.autotune_window
  dsimp only
  rw [if_neg hif]

/-- One operation preserves max_window, keeps window at most max_window
(given an in-policy ensure_window_lower_bound argument), and — when
max_window < 2 ^ 63, so that the doubling cannot wrap — never decreases
the window. -/
theorem applyOp_window_step (s : FlowControl) (op : Op)
    (h1 : s.window ≤ s.max_window)
    (h2 : ∀ m, op = Op.ensureLB m → m ≤ s.max_window) :
    (applyOp s op).max_window = s.max_window ∧
    (applyOp s op).window ≤ s.max_window ∧
    (s.max_window < 2 ^ 63 → s.window ≤ (applyOp s op).window) := by
  rcases s with ⟨ro, rv, md, w, mw, lu⟩
  dsimp only at h1 h2 ⊢
  cases op with
  | incConsumed d => exact ⟨rfl, h1, fun _ => Nat.le_refl _⟩
  | incArrived d => exact ⟨rfl, h1, fun _ => Nat.le_refl _⟩
  | shouldSend => exact ⟨rfl, h1, fun _ => Nat.le_refl _⟩
  | nextLimit => exact ⟨rfl, h1, fun _ => Nat.le_refl _⟩
  | commit now => exact ⟨rfl, h1, fun _ => Nat.le_refl _⟩
  | autotune now srtt =>
    dsimp only [applyOp]
    rcases lu with _ | lu0
    · exact ⟨rfl, h1, fun _ => Nat.le_refl _⟩
    · by_cases hif : now - lu0 < srtt * 2
      · rw [autotune_eq_pos ro rv md w mw lu0 now srtt hif]
        refine ⟨rfl, min_le_right _ _, ?_⟩
        intro hmw
        have hU : (2 : Nat) ^ 63 * 2 = U64 := by norm_num [U64]
        have h2w : w * 2 < U64 := by omega
        rw [Nat.mod_eq_of_lt h2w]
        exact le_min (by omega) h1
      · rw [autotune_eq_neg ro rv md w mw lu0 now srtt hif]
        exact ⟨rfl, h1, fun _ => Nat.le_refl _⟩
  | ensureLB m =>
    have hm : m ≤ mw := h2 m rfl
    exact ⟨rfl, max_le h1 hm, fun _ => le_max_left _ _⟩

/-- Decomposition of ensureOK over a cons, by definition of List.all. -/
theorem ensureOK_cons (mw : Nat) (op : Op) (ops : List Op) :
    ensureOK mw (op :: ops)
      = ((match op with
          | Op.ensureLB m => decide (m ≤ mw)
          | _ => true) && ensureOK mw ops) := rfl

/-- Decomposition of ensureOK over an append. -/
theorem ensureOK_append (mw : Nat) (l1 l2 : List Op) :
    ensureOK mw (l1 ++ l2) = (ensureOK mw l1 && ensureOK mw l2) := by
  induction l1 with
  | nil => simp [ensureOK]
  | cons op ops ih =>
    rw [List.cons_append, ensureOK_cons, ensureOK_cons, ih, Bool.and_assoc]

/-- Decomposition of applyOps over an append. -/
theorem applyOps_append (s : FlowControl) (l1 l2 : List Op) :
    applyOps s (l1 ++ l2) = applyOps (applyOps s l1) l2 :=
  List.foldl_append applyOp s l1 l2

/-- Along any in-policy sequence of operations, max_window is constant,
window stays at most max_window, and (for max_window < 2 ^ 63) window
never decreases. -/
theorem window_trace (ops : List Op) (s : FlowControl)
    (h1 : s.window ≤ s.max_window)
    (h2 : ensureOK s.max_window ops = true) :
    (applyOps s ops).max_window = s.max_window ∧
    (applyOps s ops).window ≤ s.max_window ∧
    (s.max_window < 2 ^ 63 → s.window ≤ (applyOps s ops).window) := by
  induction ops generalizing s with
  | nil => exact ⟨rfl, h1, fun _ => Nat.le_refl _⟩
  | cons op ops ih =>
    rw [ensureOK_cons, Bool.and_eq_true] at h2
    have hop : ∀ m, op = Op.ensureLB m → m ≤ s.max_window := by
      intro m hm
      subst hm
      exact of_decide_eq_true h2.1
    obtain ⟨e1, e2, e3⟩ := applyOp_window_step s op h1 hop
    have h1' : (applyOp s op).window ≤ (applyOp s op).max_window := by
      rw [e1]; exact e2
    have h2ops : ensureOK (applyOp s op).max_window ops = true := by
      rw [e1]; exact h2.2
    obtain ⟨f1, f2, f3⟩ := ih (applyOp s op) h1' h2ops
    refine ⟨f1.trans e1, ?_, ?_⟩
    · show (applyOps (applyOp s op) ops).window ≤ s.max_window
      rw [← e1]
      exact f2
    · intro hmw
      exact le_trans (e3 hmw) (f3 (by rw [e1]; exact hmw))

/-- Counterexample for C3: ensure_window_lower_bound is not capped at
max_window, so a single in-range call pushes window above max_window. -/
theorem c3_window_cex :
    ¬ ((applyOps (FlowControl.new 10 20) [Op.ensureLB 21]).window ≤
        (applyOps (FlowControl.new 10 20) [Op.ensureLB 21]).max_window) := by
  decide

/-- Claim C3 (amended): starting from new(w, mw) with w ≤ mw, along any
sequence of the seven operations whose ensure_window_lower_bound
arguments are all at most mw, window stays at most mw; and when
additionally mw < 2 ^ 63 (so the autotuning doubling cannot wrap),
window is monotonically non-decreasing across the sequence. -/
theorem c3_window_inv (w mw : Nat) (l1 l2 : List Op)
    (h1 : w ≤ mw) (h2 : ensureOK mw (l1 ++ l2) = true) :
    (applyOps (FlowControl.new w mw) (l1 ++ l2)).window ≤ mw ∧
    (mw < 2 ^ 63 →
      (applyOps (FlowControl.new w mw) l1).window ≤
        (applyOps (FlowControl.new w mw) (l1 ++ l2)).window) := by
  have hall := window_trace (l1 ++ l2) (FlowControl.new w mw) h1 h2
  refine ⟨hall.2.1, ?_⟩
  intro hmw
  have hsplit : applyOps (FlowControl.new w mw) (l1 ++ l2)
      = applyOps (applyOps (FlowControl.new w mw) l1) l2 :=
    applyOps_append _ l1 l2
  have h2a : ensureOK mw l1 = true ∧ ensureOK mw l2 = true := by
    rw [ensureOK_append, Bool.and_eq_true] at h2
    exact h2
  have hl1 := window_trace l1 (FlowControl.new w mw) h1 h2a.1
  have hs1mw : (applyOps (FlowControl.new w mw) l1).max_window = mw := hl1.1
  have hl2 := window_trace l2 (applyOps (FlowControl.new w mw) l1)
    (by rw [hs1mw]; exact hl1.2.1) (by rw [hs1mw]; exact h2a.2)
  rw [hsplit]
  exact hl2.2.2 (by rw [hs1mw]; exact hmw)

/-- Witness for C3: a concrete in-policy sequence. -/
theorem c3_window_inv_witness :
    (applyOps (FlowControl.new 10 20) [Op.ensureLB 15]).window ≤
      (applyOps (FlowControl.new 10 20)
        ([Op.ensureLB 15] ++ [Op.autotune 0 1])).window :=
  (c3_window_inv 10 20 [Op.ensureLB 15] [Op.autotune 0 1]
    (by decide) (by decide)).2 (by decide)

/-- Decomposition of okTrace over a cons, by definition. -/
theorem okTrace_cons (s : FlowControl) (op : Op) (ops : List Op) :
    okTrace s (op :: ops) = (okStep s op && okTrace (applyOp s op) ops) := rfl

/-- Decomposition of okTrace over an append. -/
theorem okTrace_append (s : FlowControl) (l1 l2 : List Op) :
    okTrace s (l1 ++ l2) = (okTrace s l1 && okTrace (applyOps s l1) l2) := by
  induction l1 generalizing s with
  | nil => simp [okTrace, applyOps]
  | cons op ops ih =>
    rw [List.cons_append, okTrace_cons, okTrace_cons, ih, Bool.and_assoc]
    rfl

/-- One overflow-free, in-policy step preserves max_window, keeps the
invariant window ≤ max_window and max_data ≤ read_off + window, and
never decreases max_data (given max_window < 2 ^ 63 so the doubling in
autotuning cannot wrap). -/
theorem limit_step (s : FlowControl) (op : Op)
    (hmw : s.max_window < 2 ^ 63)
    (hI1 : s.window ≤ s.max_window)
    (hI2 : s.max_data ≤ s.read_off + s.window)
    (hok : okStep s op = true) :
    (applyOp s op).max_window = s.max_window ∧
    (applyOp s op).window ≤ (applyOp s op).max_window ∧
    (applyOp s op).max_data
      ≤ (applyOp s op).read_off + (applyOp s op).window ∧
    s.max_data ≤ (applyOp s op).max_data := by
  rcases s with ⟨ro, rv, md, w, mw, lu⟩
  dsimp only at hmw hI1 hI2 ⊢
  cases op with
  | incConsumed d =>
    have hd : ro + d < U64 := of_decide_eq_true hok
    dsimp only [applyOp, FlowControl.increase_read_off]
    rw [Nat.mod_eq_of_lt hd]
    exact ⟨rfl, hI1, by omega, Nat.le_refl _⟩
  | incArrived d =>
    dsimp only [applyOp, FlowControl.increase_recv_off]
    exact ⟨rfl, hI1, hI2, Nat.le_refl _⟩
  | shouldSend => exact ⟨rfl, hI1, hI2, Nat.le_refl _⟩
  | nextLimit => exact ⟨rfl, hI1, hI2, Nat.le_refl _⟩
  | commit now =>
    have hc : ro + w < U64 := of_decide_eq_true hok
    dsimp only [applyOp, FlowControl.update_max_data, FlowControl.max_data_next]
    rw [Nat.mod_eq_of_lt hc]
    exact ⟨rfl, hI1, Nat.le_refl _, hI2⟩
  | autotune now srtt =>
    dsimp only [applyOp]
    rcases lu with _ | lu0
    · exact ⟨rfl, hI1, hI2, Nat.le_refl _⟩
    · by_cases hif : now - lu0 < srtt * 2
      · rw [autotune_eq_pos ro rv md w mw lu0 now srtt hif]
        have hU : (2 : Nat) ^ 63 * 2 = U64 := by norm_num [U64]
        have h2w : w * 2 < U64 := by omega
        rw [Nat.mod_eq_of_lt h2w]
        dsimp only
        have hwin : w ≤ min (w * 2) mw := le_min (by omega) hI1
        exact ⟨rfl, min_le_right _ _, by omega, Nat.le_refl _⟩
      · rw [autotune_eq_neg ro rv md w mw lu0 now srtt hif]
        exact ⟨rfl, hI1, hI2, Nat.le_refl _⟩
  | ensureLB m =>
    have hm : m ≤ mw := of_decide_eq_true hok
    dsimp only [applyOp, FlowControl.ensure_window_lower_bound]
    have hwin : w ≤ max w m := le_max_left _ _
    exact ⟨rfl, max_le hI1 hm, by omega, Nat.le_refl _⟩

/-- Along any overflow-free, in-policy sequence, max_window is constant,
the invariant window ≤ max_window and max_data ≤ read_off + window is
preserved, and max_data never decreases. -/
theorem limit_trace (ops : List Op) (s : FlowControl)
    (hmw : s.max_window < 2 ^ 63)
    (hI1 : s.window ≤ s.max_window)
    (hI2 : s.max_data ≤ s.read_off + s.window)
    (hok : okTrace s ops = true) :
    (applyOps s ops).max_window = s.max_window ∧
    (applyOps s ops).window ≤ (applyOps s ops).max_window ∧
    (applyOps s ops).max_data
      ≤ (applyOps s ops).read_off + (applyOps s ops).window ∧
    s.max_data ≤ (applyOps s ops).max_data := by
  induction ops generalizing s with
  | nil => exact ⟨rfl, hI1, hI2, Nat.le_refl _⟩
  | cons op ops ih =>
    rw [okTrace_cons, Bool.and_eq_true] at hok
    obtain ⟨e1, e2, e3, e4⟩ := limit_step s op hmw hI1 hI2 hok.1
    obtain ⟨f1, f2, f3, f4⟩ := ih (applyOp s op)
      (by rw [e1]; exact hmw) e2 e3 hok.2
    exact ⟨f1.trans e1, f2, f3, le_trans e4 f4⟩

/-- Counterexample for C6: with no counter overflow anywhere, a single
out-of-range ensure_window_lower_bound call (not excluded by the claim)
lets a later autotuning step shrink the window, after which the next
commit strictly lowers max_data. -/
theorem c6_limit_cex :
    (applyOps (FlowControl.new 10 20)
        [Op.ensureLB 30, Op.commit 0, Op.autotune 0 5, Op.commit 1]).max_data <
      (applyOps (FlowControl.new 10 20)
        [Op.ensureLB 30, Op.commit 0]).max_data := by
  decide

/-- Claim C6 (amended): starting from new(w, mw) with w ≤ mw and
mw < 2 ^ 63, along any sequence of operations that is overflow-free and
whose ensure_window_lower_bound arguments stay at most mw, max_data is
monotonically non-decreasing. -/
theorem c6_limit_mono (w mw : Nat) (l1 l2 : List Op)
    (h1 : w ≤ mw) (h2 : mw < 2 ^ 63)
    (h3 : okTrace (FlowControl.new w mw) (l1 ++ l2) = true) :
    (applyOps (FlowControl.new w mw) l1).max_data ≤
      (applyOps (FlowControl.new w mw) (l1 ++ l2)).max_data := by
  rw [okTrace_append, Bool.and_eq_true] at h3
  have hI2 : (FlowControl.new w mw).max_data
      ≤ (FlowControl.new w mw).read_off + (FlowControl.new w mw).window := by
    show w ≤ 0 + w
    omega
  obtain ⟨g1, g2, g3, g4⟩ := limit_trace l1 (FlowControl.new w mw) h2 h1 hI2 h3.1
  obtain ⟨f1, f2, f3, f4⟩ := limit_trace l2 (applyOps (FlowControl.new w mw) l1)
    (by rw [g1]; exact h2) g2 g3 h3.2
  rw [applyOps_append]
  exact f4

/-- Witness for C6: the autotuning scenario from the repository tests,
window 10, max_window 30, consume 6, commit, autotune, consume 5,
commit. -/
theorem c6_limit_mono_witness :
    (applyOps (FlowControl.new 10 30)
        [Op.incConsumed 6, Op.commit 0]).max_data ≤
      (applyOps (FlowControl.new 10 30)
        ([Op.incConsumed 6, Op.commit 0] ++
          [Op.autotune 0 100, Op.incConsumed 5, Op.commit 1])).max_data :=
  c6_limit_mono 10 30 [Op.incConsumed 6, Op.commit 0]
    [Op.autotune 0 100, Op.incConsumed 5, Op.commit 1]
    (by decide) (by decide) (by decide)

/-- Along a sequence of increase operations only, when the running sums
stay below 2 ^ 64, read_off and recv_off each advance by exactly the
total of their deltas. -/
theorem inc_trace (ops : List Op) (s : FlowControl)
    (h1 : incOnly ops = true)
    (h2 : s.read_off + consumedSum ops < U64)
    (h3 : s.recv_off + arrivedSum ops < U64) :
    (applyOps s ops).read_off = s.read_off + consumedSum ops ∧
    (applyOps s ops).recv_off = s.recv_off + arrivedSum ops := by
  induction ops generalizing s with
  | nil => exact ⟨(Nat.add_zero _).symm, (Nat.add_zero _).symm⟩
  | cons op ops ih =>
    cases op with
    | incConsumed d =>
      have hd : s.read_off + d < U64 := by
        have h2' : s.read_off + (d + consumedSum ops) < U64 := h2
        omega
      have hro : (s.increase_read_off d).read_off = s.read_off + d := by
        unfold FlowControl.increase_read_off
        dsimp only
        exact Nat.mod_eq_of_lt hd
      have hrv : (s.increase_read_off d).recv_off = s.recv_off := rfl
      have := ih (s.increase_read_off d) h1
        (by rw [hro]; have h2' : s.read_off + (d + consumedSum ops) < U64 := h2; omega)
        (by rw [hrv]; exact h3)
      refine ⟨?_, ?_⟩
      · show (applyOps (s.increase_read_off d) ops).read_off
          = s.read_off + (d + consumedSum ops)
        rw [this.1, hro]
        omega
      · show (applyOps (s.increase_read_off d) ops).recv_off
          = s.recv_off + arrivedSum ops
        rw [this.2, hrv]
    | incArrived d =>
      have hd : s.recv_off + d < U64 := by
        have h3' : s.recv_off + (d + arrivedSum ops) < U64 := h3
        omega
      have hrv : (s.increase_recv_off d).recv_off = s.recv_off + d := by
        unfold FlowControl.increase_recv_off
        dsimp only
        exact Nat.mod_eq_of_lt hd
      have hro : (s.increase_recv_off d).read_off = s.read_off := rfl
      have := ih (s.increase_recv_off d) h1
        (by rw [hro]; exact h2)
        (by rw [hrv]; have h3' : s.recv_off + (d + arrivedSum ops) < U64 := h3; omega)
      refine ⟨?_, ?_⟩
      · show (applyOps (s.increase_recv_off d) ops).read_off
          = s.read_off + consumedSum ops
        rw [this.1, hro]
      · show (applyOps (s.increase_recv_off d) ops).recv_off
          = s.recv_off + (d + arrivedSum ops)
        rw [this.2, hrv]
        omega
    | shouldSend => exact Bool.noConfusion h1
    | nextLimit => exact Bool.noConfusion h1
    | commit now => exact Bool.noConfusion h1
    | autotune now srtt => exact Bool.noConfusion h1
    | ensureLB m => exact Bool.noConfusion h1

/-- Counterexample for C5: the additions are neither saturating nor
checked — two increments of 2 ^ 63 silently wrap the consumed counter
to 0, not the running sum 2 ^ 64. -/
theorem c5_counters_cex :
    (applyOps (FlowControl.new 0 0)
        [Op.incConsumed (2 ^ 63), Op.incConsumed (2 ^ 63)]).read_off = 0 ∧
    (2 ^ 63 + 2 ^ 63 : Nat) ≠ 0 := by
  constructor
  · decide
  · decide

/-- Claim C5 (amended): for every sequence of increase_consumed and
increase_arrived calls whose running sums stay below 2 ^ 64, the
consumed and arrived counters equal the running sums of the deltas; the
additions are plain u64 additions, which wrap modulo 2 ^ 64 beyond that
range. -/
theorem c5_counters_sum (w mw : Nat) (ops : List Op)
    (h1 : incOnly ops = true)
    (h2 : consumedSum ops < U64)
    (h3 : arrivedSum ops < U64) :
    (applyOps (FlowControl.new w mw) ops).read_off = consumedSum ops ∧
    (applyOps (FlowControl.new w mw) ops).recv_off = arrivedSum ops := by
  have h := inc_trace ops (FlowControl.new w mw) h1
    (by show 0 + consumedSum ops < U64; omega)
    (by show 0 + arrivedSum ops < U64; omega)
  exact ⟨h.1.trans (Nat.zero_add _), h.2.trans (Nat.zero_add _)⟩

/-- Witness for C5: the delta sequence from the repository tests. -/
theorem c5_counters_sum_witness :
    (applyOps (FlowControl.new 100 200)
        [Op.incArrived 10, Op.incConsumed 7, Op.incArrived 20,
          Op.incArrived 30]).read_off = 7 ∧
    (applyOps (FlowControl.new 100 200)
        [Op.incArrived 10, Op.incConsumed 7, Op.incArrived 20,
          Op.incArrived 30]).recv_off = 60 :=
  c5_counters_sum 100 200
    [Op.incArrived 10, Op.incConsumed 7, Op.incArrived 20, Op.incArrived 30]
    (by decide) (by decide) (by decide)
